import Mathlib

/-!
# Verification of the raffle rule-engine (src/raffle/raffle.py)

A shallow embedding of the raffle cog's lifecycle engine: the per-guild
store of raffles, the `create` / `join` / `leave` / `kick` / `end` / `draw`
transitions, the `edit` condition commands, the prevented-user and
role-requirement list management, and the `replenish_cache` reconciliation
pass.  Identities and role ids are modelled as `Nat`, raffle names as
`String`, YAML integers as `Int`.

Modelling conventions, each justified against the source:

* The guild store `Config.guild(g).raffles()` maps each raffle name to a
  one-element list `[data]`; the wrapper list is never used for anything
  except `[0]` indexing, so we model the store as an association list
  `List (String × RaffleData)` (Python dicts preserve insertion order and
  have unique keys).

* Red's `Config` value reads return copies of the stored data; only the
  value bound by `async with ... as r` is written back when the block
  exits.  A pure functional embedding models this directly: mutations of a
  previously-fetched snapshot are simply lost unless the snapshot is the
  value that is written back.  This matters exactly once, in `join`
  (line 387), where `raffle_data[0]["maximum_entries"] -= 1` mutates the
  snapshot fetched at line 347 rather than the locked value `r` of
  line 383, so the stored `maximum_entries` is left unchanged.

* Python truthiness: `None`, `0`, `""`, `[]` and `False` are falsy,
  everything else truthy.  Each `if value:` guard in the source is
  translated with the truthiness test of the value's type.

* Due to line 327 of `create` ("prevented_users": valid.get
  ("maximum_entries", None)), the stored `prevented_users` field can hold
  an `int` (the definition's `maximum_entries` value) instead of a list of
  user ids.  The stored field is therefore modelled as
  `Option UsersField` with integer and id-list constructors, and the
  operations that would raise `TypeError` on the integer form
  (`id in <int>`) report a dedicated `typeError` outcome.
-/

namespace Raffle

/-- A stored `prevented_users` value: either a list of user ids, or — via
the `create` slip at line 327 which stores the definition's
`maximum_entries` integer under this key — a bare integer. -/
inductive UsersField where
  | int : Int → UsersField
  | ids : List Nat → UsersField
deriving DecidableEq, Repr

/-- The per-raffle dict stored in the guild config (the `data` dict built
by `create` at lines 319–332 and mutated by the other commands).  Optional
keys of the Python dict become `Option` fields; a `none` models the key
being absent from the dict. -/
structure RaffleData where
  entries : List Nat
  owner : Nat
  account_age : Option Int := none
  join_age : Option Int := none
  roles_needed_to_enter : Option (List Nat) := none
  prevented_users : Option UsersField := none
  maximum_entries : Option Int := none
  description : Option String := none
deriving DecidableEq, Repr

/-- The per-guild raffle store: `Config.guild(ctx.guild).raffles()`, a dict
from (lowercased-at-creation) raffle name to raffle data. -/
abbrev Store := List (String × RaffleData)

/-- `r.get(raffle, None)`. -/
def Store.get : Store → String → Option RaffleData
  | [], _ => none
  | (k, d) :: rest, name => if k = name then some d else Store.get rest name

/-- Replacing the value of an existing key in place (mutation of
`r[raffle][0]` inside an `async with` block).  Absent keys are untouched. -/
def Store.set : Store → String → RaffleData → Store
  | [], _, _ => []
  | (k, d) :: rest, name, v =>
    if k = name then (k, v) :: rest else (k, d) :: Store.set rest name v

/-- `r.pop(raffle)`: removes the key from the dict. -/
def Store.pop : Store → String → Store
  | [], _ => []
  | (k, d) :: rest, name => if k = name then rest else (k, d) :: Store.pop rest name

/-- The environment of "now"-dependent day counts fixed at module load
time: `(now - discord_creation_date).days` and
`(now - ctx.guild.created_at).days` (lines 28–32). -/
structure Ages where
  platformAgeDays : Int
  guildAgeDays : Int
deriving DecidableEq, Repr

/-- `account_age_checker = lambda x: x < (now - discord_creation_date).days`
(line 31). -/
def account_age_checker (env : Ages) (x : Int) : Bool :=
  x < env.platformAgeDays

/-- `join_age_checker = lambda ctx, x: x < (now - ctx.guild.created_at).days`
(line 32). -/
def join_age_checker (env : Ages) (x : Int) : Bool :=
  x < env.guildAgeDays

/-- The external entity resolvers `bot.get_user` / `guild.get_role`,
abstracted as membership predicates (a `false` result models the lookup
returning `None`). -/
structure Resolvers where
  getUser : Nat → Bool
  getRole : Nat → Bool

/-- The joining user: `ctx.author.id`, the ids of `ctx.author.roles`, and
`(now - ctx.author.created_at).days`. -/
structure Joiner where
  id : Nat
  roles : List Nat
  accountAgeDays : Int
deriving DecidableEq, Repr

/-! ## join (lines 344–391) -/

inductive JoinResult where
  | notFound
  | alreadyEntered
  | prevented
  | ownerCannotJoin
  | full
  | missingRole : Nat → JoinResult
  | tooYoung
  | typeError
  | joined
deriving DecidableEq, Repr

/-- Line 361: `if raffle_entities("prevented_users") and ctx.author.id in
raffle_entities("prevented_users")`.  A missing key or a falsy value
(`0`, `[]`) skips the check; a truthy integer makes `in` raise
`TypeError`; a non-empty id list checks membership. -/
def preventedCheck : Option UsersField → Nat → Option JoinResult
  | none, _ => none
  | some (.int n), _ => if n = 0 then none else some .typeError
  | some (.ids l), id =>
    if l = [] then none else if id ∈ l then some .prevented else none

/-- Line 369: `if raffle_entities("maximum_entries") and
raffle_entities("maximum_entries") == 0`.  Translated literally: the value
must be truthy (non-zero) *and* equal to zero, which no integer satisfies,
so this check can never fire. -/
def maxCheck : Option Int → Bool
  | none => false
  | some n => (!(n == 0)) && (n == 0)

/-- Lines 373–376: if the (truthy) role list is present, scan it in order
and report the first role the author does not hold. -/
def rolesCheck : Option (List Nat) → List Nat → Option Nat
  | none, _ => none
  | some rs, mine =>
    if rs = [] then none else rs.find? (fun r => !(mine.contains r))

/-- Lines 379–380: `if raffle_entities("account_age") and
raffle_entities("account_age") > (now - ctx.author.created_at).days`. -/
def ageCheck : Option Int → Int → Bool
  | none, _ => false
  | some a, days => (!(a == 0)) && (days < a)

/-- `join` (lines 344–391).  The eligibility checks run in source order on
the raffle data; on success the author id is appended to `entries` inside
the locked block.  The `maximum_entries` decrement at line 387 targets the
snapshot fetched at line 347, which Red's `Config` returns as a copy, so
the stored counter is unchanged (see the module comment). -/
def join (store : Store) (name : String) (j : Joiner) : JoinResult × Store :=
  match store.get name with
  | none => (.notFound, store)
  | some d =>
    if j.id ∈ d.entries then (.alreadyEntered, store)
    else match preventedCheck d.prevented_users j.id with
    | some res => (res, store)
    | none =>
      if j.id = d.owner then (.ownerCannotJoin, store)
      else if maxCheck d.maximum_entries then (.full, store)
      else match rolesCheck d.roles_needed_to_enter j.roles with
      | some r => (.missingRole r, store)
      | none =>
        if ageCheck d.account_age j.accountAgeDays then (.tooYoung, store)
        else (.joined, store.set name { d with entries := d.entries ++ [j.id] })

/-! ## leave (lines 393–406), kick (lines 443–458) -/

inductive LeaveResult where
  | notFound
  | notEntered
  | left
deriving DecidableEq, Repr

/-- `leave` (lines 393–406): `raffle_entries.remove(ctx.author.id)`
removes the first occurrence, i.e. `List.erase`. -/
def leave (store : Store) (name : String) (id : Nat) : LeaveResult × Store :=
  match store.get name with
  | none => (.notFound, store)
  | some d =>
    if id ∈ d.entries then
      (.left, store.set name { d with entries := d.entries.erase id })
    else (.notEntered, store)

inductive KickResult where
  | notFound
  | notOwner
  | notEntered
  | kicked
deriving DecidableEq, Repr

/-- `kick` (lines 443–458). -/
def kick (store : Store) (name : String) (caller memberId : Nat) :
    KickResult × Store :=
  match store.get name with
  | none => (.notFound, store)
  | some d =>
    if caller ≠ d.owner then (.notOwner, store)
    else if memberId ∈ d.entries then
      (.kicked, store.set name { d with entries := d.entries.erase memberId })
    else (.notEntered, store)

/-! ## end (lines 425–441), draw (lines 567–592), teardown (lines 486–525) -/

inductive EndResult where
  | notFound
  | notOwner
  | ended
deriving DecidableEq, Repr

/-- `end` (lines 425–441): owner-only, pops the raffle. -/
def endRaffle (store : Store) (name : String) (caller : Nat) :
    EndResult × Store :=
  match store.get name with
  | none => (.notFound, store)
  | some d =>
    if caller ≠ d.owner then (.notOwner, store)
    else (.ended, store.pop name)

inductive DrawResult where
  | notFound
  | noEntries
  | attributeError : Nat → DrawResult
  | winner : Nat → DrawResult
deriving DecidableEq, Repr

/-- `draw` (lines 567–592).  `random.choice(entries)` picks
`entries[i]` for an index `i` drawn uniformly from `0 .. len(entries)-1`;
the random index is a parameter `choice` of the model (reduced mod the
length so the function is total; callers instantiate `choice` below the
length).  Before the raffle is popped, line 586 renders the announcement
via `self.bot.get_user(winner).mention`: when the winner's id no longer
resolves, `get_user` returns `None` and the attribute access raises an
uncaught `AttributeError` (modelled as `.attributeError`), so
`r.pop(raffle)` at line 591 is never reached and the raffle stays in the
store (`r` was not mutated before the exception, so the store is
unchanged whether or not the aborted `async with` block writes back). -/
def draw (res : Resolvers) (store : Store) (name : String) (choice : Nat) :
    DrawResult × Store :=
  match store.get name with
  | none => (.notFound, store)
  | some d =>
    if d.entries = [] then (.noEntries, store)
    else
      let winner := d.entries.getD (choice % d.entries.length) 0
      if res.getUser winner then (.winner winner, store.pop name)
      else (.attributeError winner, store)

/-- `teardown` (lines 486–525): after external confirmation, `r.clear()`. -/
def teardown (_store : Store) : Store := []

/-! ## edit commands (lines 640–734) -/

/-- The `Union[int, bool]` parameter of the edit commands. -/
inductive IntOrBool where
  | int : Int → IntOrBool
  | bool : Bool → IntOrBool
deriving DecidableEq, Repr

/-- Python truthiness of a `Union[int, bool]` value. -/
def IntOrBool.truthy : IntOrBool → Bool
  | .int n => !(n == 0)
  | .bool b => b

/-- The `Union[bool, str]` parameter of `edit description`. -/
inductive BoolOrStr where
  | bool : Bool → BoolOrStr
  | str : String → BoolOrStr
deriving DecidableEq, Repr

/-- Python truthiness of a `Union[bool, str]` value. -/
def BoolOrStr.truthy : BoolOrStr → Bool
  | .bool b => b
  | .str s => !(s == "")

inductive EditResult where
  | notFound
  | removed
  | usageError
  | badArgument
  | updated
deriving DecidableEq, Repr

/-- `edit accage` (lines 640–664).  Note the branch structure: the falsy /
`True` handling applies only to `bool`-typed arguments
(`isinstance(new_account_age, bool)`); the integer `0` is *not* a `bool`
instance, so it falls through to `parse_accage(0)` (which passes, since
`0 < platformAgeDays`) and is stored. -/
def accage (env : Ages) (store : Store) (name : String) (v : IntOrBool) :
    EditResult × Store :=
  match store.get name with
  | none => (.notFound, store)
  | some d =>
    match v with
    | .bool b =>
      if !b then (.removed, store.set name { d with account_age := none })
      else (.usageError, store)
    | .int n =>
      if account_age_checker env n then
        (.updated, store.set name { d with account_age := some n })
      else (.badArgument, store)

/-- `edit joinage` (lines 666–690): `if not new_join_age` (falsy `False`
or `0`) deletes the key; `elif new_join_age is True` reports a usage
error; otherwise the (non-zero integer) value is validated and stored. -/
def joinage (env : Ages) (store : Store) (name : String) (v : IntOrBool) :
    EditResult × Store :=
  match store.get name with
  | none => (.notFound, store)
  | some d =>
    if !v.truthy then (.removed, store.set name { d with join_age := none })
    else if v = .bool true then (.usageError, store)
    else match v with
    | .int n =>
      if join_age_checker env n then
        (.updated, store.set name { d with join_age := some n })
      else (.badArgument, store)
    | .bool _ => (.usageError, store)  -- unreachable: a truthy bool is True

/-- `edit description` (lines 692–712): same falsy / `True` structure,
with no validation on the stored string. -/
def editDescription (store : Store) (name : String) (v : BoolOrStr) :
    EditResult × Store :=
  match store.get name with
  | none => (.notFound, store)
  | some d =>
    if !v.truthy then (.removed, store.set name { d with description := none })
    else if v = .bool true then (.usageError, store)
    else match v with
    | .str s => (.updated, store.set name { d with description := some s })
    | .bool _ => (.usageError, store)  -- unreachable: a truthy bool is True

/-- `edit maxentries` (lines 714–734): same falsy / `True` structure, with
no validation on the stored integer. -/
def maxentries (store : Store) (name : String) (v : IntOrBool) :
    EditResult × Store :=
  match store.get name with
  | none => (.notFound, store)
  | some d =>
    if !v.truthy then
      (.removed, store.set name { d with maximum_entries := none })
    else if v = .bool true then (.usageError, store)
    else match v with
    | .int n => (.updated, store.set name { d with maximum_entries := some n })
    | .bool _ => (.usageError, store)  -- unreachable: a truthy bool is True

/-! ## prevented-user and role-requirement management (lines 741–838) -/

inductive ListOpResult where
  | notFound
  | alreadyPresent
  | notPresent
  | nothingToClear
  | done
  | keyError
  | typeError
deriving DecidableEq, Repr

/-- `edit prevented add` (lines 741–754).  Line 749 indexes
`raffle_data[0]["prevented_users"]` directly: an absent key raises an
uncaught `KeyError` (modelled as `.keyError`), and an integer-valued field
makes `member.id in prevented` raise `TypeError`. -/
def prevented_add (store : Store) (name : String) (memberId : Nat) :
    ListOpResult × Store :=
  match store.get name with
  | none => (.notFound, store)
  | some d =>
    match d.prevented_users with
    | none => (.keyError, store)
    | some (.int _) => (.typeError, store)
    | some (.ids l) =>
      if memberId ∈ l then (.alreadyPresent, store)
      else (.done, store.set name
        { d with prevented_users := some (.ids (l ++ [memberId])) })

/-- `edit prevented remove` (lines 756–769): same direct indexing. -/
def prevented_remove (store : Store) (name : String) (memberId : Nat) :
    ListOpResult × Store :=
  match store.get name with
  | none => (.notFound, store)
  | some d =>
    match d.prevented_users with
    | none => (.keyError, store)
    | some (.int _) => (.typeError, store)
    | some (.ids l) =>
      if memberId ∈ l then
        (.done, store.set name { d with prevented_users := some (.ids (l.erase memberId)) })
      else (.notPresent, store)

/-- `edit prevented clear` (lines 771–786): uses `.get(..., None)` and
deletes the key entirely. -/
def prevented_clear (store : Store) (name : String) : ListOpResult × Store :=
  match store.get name with
  | none => (.notFound, store)
  | some d =>
    match d.prevented_users with
    | none => (.nothingToClear, store)
    | some _ => (.done, store.set name { d with prevented_users := none })

/-- `edit rolesreq add` (lines 793–806).  Line 801 indexes
`raffle_data[0]["roles_needed_to_enter"]` directly: an absent key raises
an uncaught `KeyError`. -/
def rolesreq_add (store : Store) (name : String) (roleId : Nat) :
    ListOpResult × Store :=
  match store.get name with
  | none => (.notFound, store)
  | some d =>
    match d.roles_needed_to_enter with
    | none => (.keyError, store)
    | some l =>
      if roleId ∈ l then (.alreadyPresent, store)
      else (.done, store.set name
        { d with roles_needed_to_enter := some (l ++ [roleId]) })

/-- `edit rolesreq remove` (lines 808–821). -/
def rolereq_remove (store : Store) (name : String) (roleId : Nat) :
    ListOpResult × Store :=
  match store.get name with
  | none => (.notFound, store)
  | some d =>
    match d.roles_needed_to_enter with
    | none => (.keyError, store)
    | some l =>
      if roleId ∈ l then
        (.done, store.set name { d with roles_needed_to_enter := some (l.erase roleId) })
      else (.notPresent, store)

/-- `edit rolesreq clear` (lines 823–838). -/
def rolereq_clear (store : Store) (name : String) : ListOpResult × Store :=
  match store.get name with
  | none => (.notFound, store)
  | some d =>
    match d.roles_needed_to_enter with
    | none => (.nothingToClear, store)
    | some _ => (.done, store.set name { d with roles_needed_to_enter := none })

/-! ## RaffleManager and create (lines 64–162, 283–342) -/

/-- The YAML-decoded `valid` dict handed to `RaffleManager` and `create`.
The recognized keys become `Option` fields (`none` = key absent).  The
claims under verification only exercise the list forms of
`roles_needed_to_enter` / `prevented_users` and the singular-alias keys
are kept so `create`'s (non-)use of them is visible. -/
structure ParsedDef where
  name : String
  description : Option String := none
  account_age : Option Int := none
  join_age : Option Int := none
  maximum_entries : Option Int := none
  roles_needed_to_enter : Option (List Nat) := none
  role_needed_to_enter : Option (List Nat) := none
  prevented_users : Option (List Nat) := none
  prevented_user : Option (List Nat) := none
deriving DecidableEq, Repr

/-- `data.get(k) or data.get(alias)` (lines 76–83): the primary key's
value, if truthy, else the alias key's value. -/
def orAlias (primary aliasKey : Option (List Nat)) : Option (List Nat) :=
  match primary with
  | some l => if l = [] then aliasKey else some l
  | none => aliasKey

/-- `RaffleManager.parser` (lines 106–162) as a pass/fail predicate: each
`if self.field:` guard skips the checks when the field is absent or falsy.
Type checks are discharged by the typed embedding; the range checks
(`account_age_checker`, `join_age_checker`), the `name` requirement and
length bound, and the per-id entity resolution remain. -/
def parserOk (env : Ages) (res : Resolvers) (d : ParsedDef) : Bool :=
  (match d.account_age with
   | none => true
   | some a => (a == 0) || account_age_checker env a) &&
  (match d.join_age with
   | none => true
   | some a => (a == 0) || join_age_checker env a) &&
  (!(d.name == "") && d.name.length ≤ 15) &&
  (match orAlias d.roles_needed_to_enter d.role_needed_to_enter with
   | none => true
   | some rs => rs = [] || rs.all res.getRole) &&
  (match orAlias d.prevented_users d.prevented_user with
   | none => true
   | some us => us = [] || us.all res.getUser)

inductive CreateResult where
  | duplicateName
  | created
deriving DecidableEq, Repr

/-- Python `str.lower()`, modelled characterwise with `Char.toLower`
(ASCII case folding, which covers every raffle name the claims use). -/
def pyLower (s : String) : String := ⟨s.data.map Char.toLower⟩

/-- `None`-defaulted optional int copied by `create`'s truthiness filter
(`for k, v in conditions.items(): if v: data[k] = v`). -/
def intIfTruthy : Option Int → Option Int
  | none => none
  | some n => if n = 0 then none else some n

/-- `create` (lines 315–339), after the parser has accepted `valid`.
`rafflename = valid.get("name").lower()`; the duplicate check is
case-insensitive over existing keys; the stored `data` dict starts with
`entries = []` and `owner`, then copies each truthy entry of the
`conditions` dict (lines 323–332).  Two slips of the source are embedded
literally:

* line 326: `valid.get("roles_needed_to_enter" or "role_needed_to_enter",
  [])` — the `or` is between the two *key strings*, so only the primary
  key is ever read (with default `[]`);
* line 327: `"prevented_users": valid.get("maximum_entries", None)` —
  the stored `prevented_users` receives the definition's
  `maximum_entries` integer, and no `maximum_entries` key is ever
  stored. -/
def createData (d : ParsedDef) (ownerId : Nat) : RaffleData :=
  { entries := []
    owner := ownerId
    account_age := intIfTruthy d.account_age
    join_age := intIfTruthy d.join_age
    roles_needed_to_enter :=
      (let v := d.roles_needed_to_enter.getD []
       if v = [] then none else some v)
    prevented_users :=
      (match d.maximum_entries with
       | none => none
       | some n => if n = 0 then none else some (.int n))
    maximum_entries := none
    description :=
      (match d.description with
       | none => none
       | some s => if s = "" then none else some s) }

def create (store : Store) (d : ParsedDef) (ownerId : Nat) :
    CreateResult × Store :=
  let rafflename := pyLower d.name
  if store.any (fun p => pyLower p.1 == rafflename) then (.duplicateName, store)
  else (.created, store ++ [(rafflename, createData d ownerId)])

/-- `create_inv` uses the fact that the stored data starts with no
entries; restated here for reuse. -/
theorem createData_entries (d : ParsedDef) (ownerId : Nat) :
    (createData d ownerId).entries = [] := rfl

/-! ## replenish_cache (lines 236–252) -/

/-- The exact semantics of the Python pattern

```
for u in l:
    if not p(u):
        l.remove(u)
```

iterating a list while removing from it.  The loop state is the iterator
position `c` into the current list, kept here as the split
`done ++ rest` with `c = done.length`.  Reading `x = l[c]` advances `c`;
`l.remove(x)` deletes the first occurrence of `x` from the whole list,
which shifts everything after it left by one, so the element that
followed the removed position is skipped by the iterator (it stays in the
list but is never tested).  With duplicates, the removed occurrence can
lie inside the already-scanned prefix, in which case the scanned copy of
`x` survives at position `c - 1`; either way one element shifts under
the iterator. -/
def pyFilter [DecidableEq α] (p : α → Bool) (done : List α) :
    List α → List α
  | [] => done
  | [x] =>
    if p x then done ++ [x]
    else if x ∈ done then done.erase x ++ [x]
    else done
  | x :: y :: rest =>
    if p x then pyFilter p (done ++ [x]) (y :: rest)
    else if x ∈ done then pyFilter p (done.erase x ++ [x, y]) rest
    else pyFilter p (done ++ [y]) rest

/-- One raffle's pass of `replenish_cache` (lines 238–252): `entries` is
always iterated; `prevented_users` and `roles_needed_to_enter` only when
present and truthy (`if getter:`).  An integer-valued `prevented_users`
(the line-327 slip) that is non-zero would raise `TypeError` at
`for userid in getter`; no claim exercises that state, and since the
exception fires before any mutation of this field the model leaves the
field unchanged there. -/
def replenishData (res : Resolvers) (d : RaffleData) : RaffleData :=
  { d with
    entries := pyFilter res.getUser [] d.entries
    prevented_users :=
      (match d.prevented_users with
       | some (.ids l) =>
         if l = [] then some (.ids l) else some (.ids (pyFilter res.getUser [] l))
       | other => other)
    roles_needed_to_enter :=
      (match d.roles_needed_to_enter with
       | some l => if l = [] then some l else some (pyFilter res.getRole [] l)
       | none => none) }

/-- `replenish_cache` (lines 236–252): every stored raffle is mutated in
place. -/
def replenish (res : Resolvers) (store : Store) : Store :=
  store.map (fun p => (p.1, replenishData res p.2))

/-! ## The operations, packaged for store-invariant statements -/

/-- One engine operation, with the external inputs (caller identity,
joiner context, random index, argument values) carried in the
constructor. -/
inductive Op where
  | opCreate : ParsedDef → Nat → Op
  | opJoin : String → Joiner → Op
  | opLeave : String → Nat → Op
  | opKick : String → Nat → Nat → Op
  | opEnd : String → Nat → Op
  | opDraw : String → Nat → Op
  | opAccage : String → IntOrBool → Op
  | opJoinage : String → IntOrBool → Op
  | opDescription : String → BoolOrStr → Op
  | opMaxentries : String → IntOrBool → Op
  | opPreventedAdd : String → Nat → Op
  | opPreventedRemove : String → Nat → Op
  | opPreventedClear : String → Op
  | opRolesreqAdd : String → Nat → Op
  | opRolesreqRemove : String → Nat → Op
  | opRolesreqClear : String → Op
  | opTeardown : Op
  | opReplenish : Op

/-- The store after one operation (result codes projected away). -/
def applyOp (env : Ages) (res : Resolvers) (store : Store) : Op → Store
  | .opCreate d owner => (create store d owner).2
  | .opJoin name j => (join store name j).2
  | .opLeave name id => (leave store name id).2
  | .opKick name caller m => (kick store name caller m).2
  | .opEnd name caller => (endRaffle store name caller).2
  | .opDraw name c => (draw res store name c).2
  | .opAccage name v => (accage env store name v).2
  | .opJoinage name v => (joinage env store name v).2
  | .opDescription name v => (editDescription store name v).2
  | .opMaxentries name v => (maxentries store name v).2
  | .opPreventedAdd name m => (prevented_add store name m).2
  | .opPreventedRemove name m => (prevented_remove store name m).2
  | .opPreventedClear name => (prevented_clear store name).2
  | .opRolesreqAdd name r => (rolesreq_add store name r).2
  | .opRolesreqRemove name r => (rolereq_remove store name r).2
  | .opRolesreqClear name => (rolereq_clear store name).2
  | .opTeardown => teardown store
  | .opReplenish => replenish res store

/-! ## Invariants -/

/-- The list of prevented user ids of a raffle (empty when the field is
absent or holds the line-327 integer). -/
def preventedIds (d : RaffleData) : List Nat :=
  match d.prevented_users with
  | some (.ids l) => l
  | _ => []

/-- The invariant claimed by the spec for a single raffle: `entries` never
contains the owner, any `prevented_users` member, or duplicates. -/
def claimedEntriesInv (d : RaffleData) : Prop :=
  d.owner ∉ d.entries ∧ d.entries.Nodup ∧ ∀ u ∈ preventedIds d, u ∉ d.entries

/-- The part of the entries invariant the code actually maintains:
`entries` never contains the owner and never contains duplicates. -/
def entriesInv (d : RaffleData) : Prop :=
  d.owner ∉ d.entries ∧ d.entries.Nodup

/-- A store-wide invariant: every stored raffle satisfies `P`. -/
def storeInv (P : RaffleData → Prop) (s : Store) : Prop :=
  ∀ p ∈ s, P p.2

instance (d : RaffleData) : Decidable (claimedEntriesInv d) := by
  unfold claimedEntriesInv; infer_instance

instance (d : RaffleData) : Decidable (entriesInv d) := by
  unfold entriesInv; infer_instance

instance (P : RaffleData → Prop) [DecidablePred P] (s : Store) :
    Decidable (storeInv P s) := by
  unfold storeInv; infer_instance

end Raffle

namespace Raffle

/-! ## Store lemmas -/

theorem Store.get_mem {s : Store} {name : String} {d : RaffleData}
    (h : Store.get s name = some d) : (name, d) ∈ s := by
  induction s with
  | nil => simp [Store.get] at h
  | cons p rest ih =>
    obtain ⟨k, v⟩ := p
    by_cases hk : k = name
    · subst hk
      simp [Store.get] at h
      simp [h]
    · simp [Store.get, hk] at h
      exact List.mem_cons_of_mem _ (ih h)

theorem Store.mem_set {s : Store} {name : String} {v : RaffleData} {p}
    (h : p ∈ Store.set s name v) : p ∈ s ∨ p = (name, v) := by
  induction s with
  | nil => simp [Store.set] at h
  | cons q rest ih =>
    obtain ⟨k, d⟩ := q
    by_cases hk : k = name
    · subst hk
      simp [Store.set] at h
      rcases h with h | h
      · exact Or.inr h
      · exact Or.inl (List.mem_cons_of_mem _ h)
    · simp [Store.set, hk] at h
      rcases h with h | h
      · exact Or.inl (by simp [h])
      · rcases ih h with h' | h'
        · exact Or.inl (List.mem_cons_of_mem _ h')
        · exact Or.inr h'

theorem Store.mem_pop {s : Store} {name : String} {p}
    (h : p ∈ Store.pop s name) : p ∈ s := by
  induction s with
  | nil => simp [Store.pop] at h
  | cons q rest ih =>
    obtain ⟨k, d⟩ := q
    by_cases hk : k = name
    · subst hk
      simp [Store.pop] at h
      exact List.mem_cons_of_mem _ h
    · simp [Store.pop, hk] at h
      rcases h with h | h
      · simp [h]
      · exact List.mem_cons_of_mem _ (ih h)

theorem Store.get_set_self {s : Store} {name : String} {d v : RaffleData}
    (h : Store.get s name = some d) :
    Store.get (Store.set s name v) name = some v := by
  induction s with
  | nil => simp [Store.get] at h
  | cons q rest ih =>
    obtain ⟨k, d'⟩ := q
    by_cases hk : k = name
    · subst hk
      simp [Store.set, Store.get]
    · simp [Store.get, hk] at h
      simp [Store.set, Store.get, hk]
      exact ih h

theorem Store.get_append_single {s : Store} {k : String} {v : RaffleData}
    (h : Store.get s k = none) :
    Store.get (s ++ [(k, v)]) k = some v := by
  induction s with
  | nil => simp [Store.get]
  | cons q rest ih =>
    obtain ⟨k', d'⟩ := q
    by_cases hk : k' = k
    · simp [Store.get, hk] at h
    · simp [Store.get, hk] at h ⊢
      exact ih h

theorem Store.get_append_single_ne {s : Store} {k k' : String} {v : RaffleData}
    (h : Store.get s k' = none) (hne : k ≠ k') :
    Store.get (s ++ [(k, v)]) k' = none := by
  induction s with
  | nil => simp [Store.get, hne]
  | cons q rest ih =>
    obtain ⟨k₀, d₀⟩ := q
    by_cases hk : k₀ = k'
    · simp [Store.get, hk] at h
    · simp [Store.get, hk] at h ⊢
      exact ih h

/-- If every key of the store is its own lowercasing and `name` is not,
then the lookup misses. -/
theorem Store.get_none_of_lower_keys {s : Store} {name : String}
    (hkeys : ∀ p ∈ s, pyLower p.1 = p.1) (hname : pyLower name ≠ name) :
    Store.get s name = none := by
  cases h : Store.get s name with
  | none => rfl
  | some d =>
    have := hkeys _ (Store.get_mem h)
    exact absurd this hname

/-! ## storeInv lemmas -/

theorem storeInv_set {P : RaffleData → Prop} {s : Store} {name : String}
    {v : RaffleData} (h : storeInv P s) (hv : P v) :
    storeInv P (Store.set s name v) := by
  intro p hp
  rcases Store.mem_set hp with hp' | hp'
  · exact h p hp'
  · rw [hp']; exact hv

theorem storeInv_pop {P : RaffleData → Prop} {s : Store} {name : String}
    (h : storeInv P s) : storeInv P (Store.pop s name) :=
  fun p hp => h p (Store.mem_pop hp)

theorem storeInv_get {P : RaffleData → Prop} {s : Store} {name : String}
    {d : RaffleData} (h : storeInv P s) (hget : Store.get s name = some d) :
    P d :=
  h _ (Store.get_mem hget)

/-! ## pyFilter only removes elements -/

theorem pyFilter_sublist [DecidableEq α] (p : α → Bool) :
    ∀ (n : Nat) (l done : List α), l.length ≤ n →
      List.Sublist (pyFilter p done l) (done ++ l) := by
  intro n
  induction n with
  | zero =>
    intro l done h
    have : l = [] := List.length_eq_zero.mp (Nat.le_zero.mp h)
    subst this
    simp [pyFilter]
  | succ n ih =>
    intro l done h
    match l with
    | [] => simp [pyFilter]
    | [x] =>
      by_cases hpx : p x
      · simp [pyFilter, hpx]
      · by_cases hxd : x ∈ done
        · simp only [pyFilter, hpx, hxd, if_false, if_true, Bool.false_eq_true,
            ite_false, ite_true]
          exact List.Sublist.append (List.erase_sublist x done) (List.Sublist.refl [x])
        · simp only [pyFilter, hpx, hxd, Bool.false_eq_true, ite_false, ite_true]
          exact List.sublist_append_left done [x]
    | x :: y :: rest =>
      have hlen : (y :: rest).length ≤ n := by
        simp at h ⊢; omega
      have hlen' : rest.length ≤ n := by
        simp at h ⊢; omega
      by_cases hpx : p x
      · have h1 := ih (y :: rest) (done ++ [x]) hlen
        have h2 : (done ++ [x]) ++ y :: rest = done ++ x :: y :: rest := by simp
        rw [h2] at h1
        simpa [pyFilter, hpx] using h1
      · by_cases hxd : x ∈ done
        · have h1 := ih rest (done.erase x ++ [x, y]) hlen'
          have h2 : List.Sublist ((done.erase x ++ [x, y]) ++ rest) ((done ++ [x, y]) ++ rest) :=
            List.Sublist.append
              (List.Sublist.append (List.erase_sublist x done) (List.Sublist.refl _))
              (List.Sublist.refl rest)
          have h3 : (done ++ [x, y]) ++ rest = done ++ x :: y :: rest := by simp
          rw [h3] at h2
          simpa [pyFilter, hpx, hxd] using h1.trans h2
        · have h1 := ih rest (done ++ [y]) hlen'
          have h2 : List.Sublist ((done ++ [y]) ++ rest) (done ++ x :: y :: rest) := by
            have : List.Sublist (y :: rest) (x :: y :: rest) := List.Sublist.cons x (List.Sublist.refl _)
            simp only [List.append_assoc, List.singleton_append]
            exact List.Sublist.append (List.Sublist.refl done) this
          simpa [pyFilter, hpx, hxd] using h1.trans h2

/-- The reconciliation loop never adds or reorders: its output is a
sublist of its input. -/
theorem pyFilter_sublist_nil [DecidableEq α] (p : α → Bool) (l : List α) :
    List.Sublist (pyFilter p [] l) l := by
  simpa using pyFilter_sublist p l.length l [] le_rfl

/-! ## entriesInv helper lemmas -/

theorem entriesInv_same_entries {d v : RaffleData} (h : entriesInv d)
    (he : v.entries = d.entries) (ho : v.owner = d.owner) : entriesInv v := by
  unfold entriesInv at *
  rw [he, ho]
  exact h

theorem entriesInv_append {d : RaffleData} {x : Nat} (h : entriesInv d)
    (hx : x ∉ d.entries) (ho : x ≠ d.owner) :
    entriesInv { d with entries := d.entries ++ [x] } := by
  obtain ⟨h1, h2⟩ := h
  constructor
  · simp only [RaffleData.mk.injEq, List.mem_append, List.mem_singleton]
    rintro (hm | hm)
    · exact h1 hm
    · exact ho hm.symm
  · simp only [List.nodup_append, List.nodup_cons, List.not_mem_nil,
      not_false_iff, List.nodup_nil, and_true, true_and,
      List.disjoint_singleton]
    exact ⟨h2, hx⟩

theorem entriesInv_erase {d : RaffleData} (h : entriesInv d) (x : Nat) :
    entriesInv { d with entries := d.entries.erase x } := by
  obtain ⟨h1, h2⟩ := h
  exact ⟨fun hm => h1 (List.mem_of_mem_erase hm), h2.erase x⟩

theorem entriesInv_sublist {d v : RaffleData} (h : entriesInv d)
    (hs : List.Sublist v.entries d.entries) (ho : v.owner = d.owner) :
    entriesInv v := by
  obtain ⟨h1, h2⟩ := h
  refine ⟨?_, h2.sublist hs⟩
  rw [ho]
  exact fun hm => h1 (hs.subset hm)

theorem storeInv_append {P : RaffleData → Prop} {s : Store} {k : String}
    {v : RaffleData} (h : storeInv P s) (hv : P v) :
    storeInv P (s ++ [(k, v)]) := by
  intro p hp
  rcases List.mem_append.mp hp with hp' | hp'
  · exact h p hp'
  · simp only [List.mem_singleton] at hp'
    rw [hp']
    exact hv

/-! ## The invariant `owner not entered, no duplicate entries` is
preserved by each operation -/

theorem entriesInv_nil {d : RaffleData} (he : d.entries = []) : entriesInv d := by
  unfold entriesInv
  rw [he]
  exact ⟨List.not_mem_nil _, List.nodup_nil⟩

theorem create_inv (store : Store) (d : ParsedDef) (ownerId : Nat)
    (h : storeInv entriesInv store) :
    storeInv entriesInv (create store d ownerId).2 := by
  unfold create
  dsimp only
  split
  · exact h
  · exact storeInv_append h (entriesInv_nil rfl)

theorem join_inv (store : Store) (name : String) (j : Joiner)
    (h : storeInv entriesInv store) :
    storeInv entriesInv (join store name j).2 := by
  unfold join
  split
  · exact h
  next d hget =>
    have hd := storeInv_get h hget
    split
    · exact h
    next hmem =>
      split
      · exact h
      next hprev =>
        split
        · exact h
        next howner =>
          split
          · exact h
          split
          · exact h
          next hroles =>
            split
            · exact h
            · exact storeInv_set h (entriesInv_append hd hmem howner)

theorem leave_inv (store : Store) (name : String) (id : Nat)
    (h : storeInv entriesInv store) :
    storeInv entriesInv (leave store name id).2 := by
  unfold leave
  split
  · exact h
  next d hget =>
    have hd := storeInv_get h hget
    split
    · exact storeInv_set h (entriesInv_erase hd id)
    · exact h

theorem kick_inv (store : Store) (name : String) (caller memberId : Nat)
    (h : storeInv entriesInv store) :
    storeInv entriesInv (kick store name caller memberId).2 := by
  unfold kick
  split
  · exact h
  next d hget =>
    have hd := storeInv_get h hget
    split
    · exact h
    split
    · exact storeInv_set h (entriesInv_erase hd memberId)
    · exact h

theorem end_inv (store : Store) (name : String) (caller : Nat)
    (h : storeInv entriesInv store) :
    storeInv entriesInv (endRaffle store name caller).2 := by
  unfold endRaffle
  split
  · exact h
  split
  · exact h
  · exact storeInv_pop h

theorem draw_inv (res : Resolvers) (store : Store) (name : String)
    (choice : Nat) (h : storeInv entriesInv store) :
    storeInv entriesInv (draw res store name choice).2 := by
  unfold draw
  split
  · exact h
  split
  · exact h
  · dsimp only
    split
    · exact storeInv_pop h
    · exact h

theorem accage_inv (env : Ages) (store : Store) (name : String) (v : IntOrBool)
    (h : storeInv entriesInv store) :
    storeInv entriesInv (accage env store name v).2 := by
  unfold accage
  split
  · exact h
  next d hget =>
    have hd := storeInv_get h hget
    split
    next b =>
      split
      · exact storeInv_set h (entriesInv_same_entries hd rfl rfl)
      · exact h
    next n =>
      split
      · exact storeInv_set h (entriesInv_same_entries hd rfl rfl)
      · exact h

theorem joinage_inv (env : Ages) (store : Store) (name : String) (v : IntOrBool)
    (h : storeInv entriesInv store) :
    storeInv entriesInv (joinage env store name v).2 := by
  unfold joinage
  split
  · exact h
  next d hget =>
    have hd := storeInv_get h hget
    split
    · exact storeInv_set h (entriesInv_same_entries hd rfl rfl)
    split
    · exact h
    split
    next n =>
      split
      · exact storeInv_set h (entriesInv_same_entries hd rfl rfl)
      · exact h
    · exact h

theorem editDescription_inv (store : Store) (name : String) (v : BoolOrStr)
    (h : storeInv entriesInv store) :
    storeInv entriesInv (editDescription store name v).2 := by
  unfold editDescription
  split
  · exact h
  next d hget =>
    have hd := storeInv_get h hget
    split
    · exact storeInv_set h (entriesInv_same_entries hd rfl rfl)
    split
    · exact h
    split
    · exact storeInv_set h (entriesInv_same_entries hd rfl rfl)
    · exact h

theorem maxentries_inv (store : Store) (name : String) (v : IntOrBool)
    (h : storeInv entriesInv store) :
    storeInv entriesInv (maxentries store name v).2 := by
  unfold maxentries
  split
  · exact h
  next d hget =>
    have hd := storeInv_get h hget
    split
    · exact storeInv_set h (entriesInv_same_entries hd rfl rfl)
    split
    · exact h
    split
    · exact storeInv_set h (entriesInv_same_entries hd rfl rfl)
    · exact h

theorem prevented_add_inv (store : Store) (name : String) (memberId : Nat)
    (h : storeInv entriesInv store) :
    storeInv entriesInv (prevented_add store name memberId).2 := by
  unfold prevented_add
  split
  · exact h
  next d hget =>
    have hd := storeInv_get h hget
    split
    · exact h
    · exact h
    split
    · exact h
    · exact storeInv_set h (entriesInv_same_entries hd rfl rfl)

theorem prevented_remove_inv (store : Store) (name : String) (memberId : Nat)
    (h : storeInv entriesInv store) :
    storeInv entriesInv (prevented_remove store name memberId).2 := by
  unfold prevented_remove
  split
  · exact h
  next d hget =>
    have hd := storeInv_get h hget
    split
    · exact h
    · exact h
    split
    · exact storeInv_set h (entriesInv_same_entries hd rfl rfl)
    · exact h

theorem prevented_clear_inv (store : Store) (name : String)
    (h : storeInv entriesInv store) :
    storeInv entriesInv (prevented_clear store name).2 := by
  unfold prevented_clear
  split
  · exact h
  next d hget =>
    have hd := storeInv_get h hget
    split
    · exact h
    · exact storeInv_set h (entriesInv_same_entries hd rfl rfl)

theorem rolesreq_add_inv (store : Store) (name : String) (roleId : Nat)
    (h : storeInv entriesInv store) :
    storeInv entriesInv (rolesreq_add store name roleId).2 := by
  unfold rolesreq_add
  split
  · exact h
  next d hget =>
    have hd := storeInv_get h hget
    split
    · exact h
    split
    · exact h
    · exact storeInv_set h (entriesInv_same_entries hd rfl rfl)

theorem rolereq_remove_inv (store : Store) (name : String) (roleId : Nat)
    (h : storeInv entriesInv store) :
    storeInv entriesInv (rolereq_remove store name roleId).2 := by
  unfold rolereq_remove
  split
  · exact h
  next d hget =>
    have hd := storeInv_get h hget
    split
    · exact h
    split
    · exact storeInv_set h (entriesInv_same_entries hd rfl rfl)
    · exact h

theorem rolereq_clear_inv (store : Store) (name : String)
    (h : storeInv entriesInv store) :
    storeInv entriesInv (rolereq_clear store name).2 := by
  unfold rolereq_clear
  split
  · exact h
  next d hget =>
    have hd := storeInv_get h hget
    split
    · exact h
    · exact storeInv_set h (entriesInv_same_entries hd rfl rfl)

theorem replenishData_inv (res : Resolvers) {d : RaffleData}
    (h : entriesInv d) : entriesInv (replenishData res d) := by
  refine entriesInv_sublist h ?_ rfl
  exact pyFilter_sublist_nil res.getUser d.entries

theorem replenish_inv (res : Resolvers) (store : Store)
    (h : storeInv entriesInv store) :
    storeInv entriesInv (replenish res store) := by
  intro p hp
  unfold replenish at hp
  rcases List.mem_map.mp hp with ⟨q, hq, rfl⟩
  exact replenishData_inv res (h q hq)

/-! ## Small facts used by several claim theorems -/

/-- The capacity test of `join` (line 369) is unsatisfiable: a value that
is truthy (non-zero) cannot equal zero. -/
theorem maxCheck_never (m : Option Int) : maxCheck m = false := by
  cases m with
  | none => rfl
  | some n => by_cases h : n = 0 <;> simp [maxCheck, h]

/-! ## Claims -/

/-- C1.  The claimed check order of `join` (existence, already-entered,
prevented, owner, capacity, roles, age) fails at the capacity slot: the
code's capacity test `maximum_entries and maximum_entries == 0` can never
be true, so a raffle with `maximum_entries = 0` does not report `Full`.
First conjunct: with `maximum_entries = 0` stored and a required role
missing, `join` reports the missing role (the claimed order requires
`Full`, which precedes the role check).  Second conjunct: the claim's
"in particular" case does hold — an identity that is both prevented and
under the account-age minimum is reported as prevented, not too young. -/
theorem C1_join_check_order_eval :
    join [("r", { entries := [], owner := 1, roles_needed_to_enter := some [5],
                  maximum_entries := some 0 })] "r" ⟨2, [], 100⟩ =
      (.missingRole 5,
        [("r", { entries := [], owner := 1, roles_needed_to_enter := some [5],
                 maximum_entries := some 0 })]) ∧
    join [("r", { entries := [], owner := 1,
                  prevented_users := some (.ids [2]), account_age := some 50 })]
        "r" ⟨2, [], 10⟩ =
      (.prevented,
        [("r", { entries := [], owner := 1,
                 prevented_users := some (.ids [2]), account_age := some 50 })]) := by
  constructor
  · decide
  · decide

/-- C2.  Evaluating the code on the claim's own scenario
(`maximum_entries = 1`, two successive joins by different users): the
first join succeeds but the stored `maximum_entries` stays `1` (the
decrement at line 387 mutates a discarded snapshot), and the second join
also succeeds instead of failing `Full` (the line-369 capacity test is
unsatisfiable), so `maximum_entries` is neither "decremented exactly once
per successful join" nor a bound on entries. -/
theorem C2_maximum_entries_eval :
    join [("g", { entries := [], owner := 1, maximum_entries := some 1 })]
        "g" ⟨2, [], 100⟩ =
      (.joined, [("g", { entries := [2], owner := 1, maximum_entries := some 1 })]) ∧
    join [("g", { entries := [2], owner := 1, maximum_entries := some 1 })]
        "g" ⟨3, [], 100⟩ =
      (.joined, [("g", { entries := [2, 3], owner := 1, maximum_entries := some 1 })]) := by
  constructor
  · decide
  · decide

/-- C3.  A valid definition `{name: "giveaway", prevented_users: [42],
maximum_entries: 5}` passes the parser, yet `create` stores
`prevented_users := 5` (line 327 reads the `maximum_entries` key), drops
the definition's prevented list, and never stores a `maximum_entries`
field — the stored raffle is not a field-for-field copy of the
present-and-truthy optional fields. -/
theorem C3_create_eval :
    parserOk ⟨2160, 400⟩ ⟨fun _ => true, fun _ => true⟩
      { name := "giveaway", prevented_users := some [42],
        maximum_entries := some 5 } = true ∧
    create []
      { name := "giveaway", prevented_users := some [42],
        maximum_entries := some 5 } 1 =
      (.created,
        [("giveaway",
          { entries := [], owner := 1, prevented_users := some (.int 5) })]) := by
  constructor
  · decide
  · decide

/-- C4 counterexample.  A store satisfying the full claimed invariant
(entries contain no owner, no prevented user, no duplicate): after
`prevented add` of user 7, who is already entered, `entries` contains a
member of `prevented_users`, so the invariant is not preserved by every
operation. -/
theorem C4_claimed_invariant_counterexample :
    storeInv claimedEntriesInv
      [("g", { entries := [7], owner := 1, prevented_users := some (.ids []) })] ∧
    prevented_add
        [("g", { entries := [7], owner := 1, prevented_users := some (.ids []) })]
        "g" 7 =
      (.done,
        [("g", { entries := [7], owner := 1, prevented_users := some (.ids [7]) })]) ∧
    ¬ storeInv claimedEntriesInv
        [("g", { entries := [7], owner := 1, prevented_users := some (.ids [7]) })] := by
  refine ⟨by decide, by decide, by decide⟩

/-- C4 (amended).  The part of the invariant the code does maintain:
after any single operation of the engine, every stored raffle still has
entries that contain neither its owner nor a duplicate.  (The
prevented-users clause of the original claim is dropped: `prevented add`
does not remove an already-entered member from `entries`.) -/
theorem C4_owner_nodup_invariant_preserved (env : Ages) (res : Resolvers)
    (store : Store) (op : Op) (h : storeInv entriesInv store) :
    storeInv entriesInv (applyOp env res store op) := by
  cases op with
  | opCreate d ownerId => exact create_inv store d ownerId h
  | opJoin name j => exact join_inv store name j h
  | opLeave name id => exact leave_inv store name id h
  | opKick name caller m => exact kick_inv store name caller m h
  | opEnd name caller => exact end_inv store name caller h
  | opDraw name c => exact draw_inv res store name c h
  | opAccage name v => exact accage_inv env store name v h
  | opJoinage name v => exact joinage_inv env store name v h
  | opDescription name v => exact editDescription_inv store name v h
  | opMaxentries name v => exact maxentries_inv store name v h
  | opPreventedAdd name m => exact prevented_add_inv store name m h
  | opPreventedRemove name m => exact prevented_remove_inv store name m h
  | opPreventedClear name => exact prevented_clear_inv store name h
  | opRolesreqAdd name r => exact rolesreq_add_inv store name r h
  | opRolesreqRemove name r => exact rolereq_remove_inv store name r h
  | opRolesreqClear name => exact rolereq_clear_inv store name h
  | opTeardown => intro p hp; simp [applyOp, teardown] at hp
  | opReplenish => exact replenish_inv res store h

/-- C4 witness: the preservation theorem applied to a concrete store and
a concrete join. -/
theorem C4_owner_nodup_invariant_preserved_witness :
    storeInv entriesInv [("g", { entries := [2], owner := 1 })] ∧
    storeInv entriesInv
      (applyOp ⟨2160, 400⟩ ⟨fun _ => true, fun _ => true⟩
        [("g", { entries := [2], owner := 1 })] (.opJoin "g" ⟨3, [], 100⟩)) :=
  ⟨by decide,
   C4_owner_nodup_invariant_preserved ⟨2160, 400⟩ ⟨fun _ => true, fun _ => true⟩
     [("g", { entries := [2], owner := 1 })] (.opJoin "g" ⟨3, [], 100⟩) (by decide)⟩

/-- C5 counterexample.  A raffle whose single stored entry no longer
resolves: the code reaches line 586's `self.bot.get_user(winner).mention`
before the pop, `get_user` returns `None`, the attribute access raises
`AttributeError`, and the raffle stays in the store — refuting the
claim's "draw on a stored raffle with exactly one entry always returns
that entry as winner and removes the raffle from the store". -/
theorem C5_draw_counterexample :
    draw ⟨fun _ => false, fun _ => false⟩
        [("g", { entries := [4], owner := 1 })] "g" 0 =
      (.attributeError 4, [("g", { entries := [4], owner := 1 })]) ∧
    draw ⟨fun _ => false, fun _ => false⟩
        [("g", { entries := [4], owner := 1 })] "g" 0 ≠
      (.winner 4, Store.pop [("g", { entries := [4], owner := 1 })] "g") := by
  constructor
  · decide
  · decide

/-- C5 (amended).  `draw` on an absent raffle fails `NotFound` with the
store unchanged; on a raffle with no entries it fails `NoEntries` and the
raffle stays in the store; on a raffle with exactly one entry *whose id
still resolves* it returns that entry as winner, whatever random index is
drawn, and pops the raffle; in general, for the uniformly-drawn index
`choice` below the entry count (uniform selection over `entries`, as
`random.choice` indexes a flat list), a resolvable winner
`entries[choice]` is returned and the raffle popped, while an
unresolvable winner raises `AttributeError` at the announcement and the
raffle stays in the store. -/
theorem C5_draw_spec (res : Resolvers) (store : Store) (name : String)
    (choice : Nat) :
    (Store.get store name = none →
      draw res store name choice = (.notFound, store)) ∧
    (∀ d, Store.get store name = some d → d.entries = [] →
      draw res store name choice = (.noEntries, store)) ∧
    (∀ d e, Store.get store name = some d → d.entries = [e] →
      res.getUser e = true →
      draw res store name choice = (.winner e, Store.pop store name)) ∧
    (∀ d, Store.get store name = some d → choice < d.entries.length →
      res.getUser (d.entries.getD choice 0) = true →
      draw res store name choice =
        (.winner (d.entries.getD choice 0), Store.pop store name)) ∧
    (∀ d, Store.get store name = some d → choice < d.entries.length →
      res.getUser (d.entries.getD choice 0) = false →
      draw res store name choice =
        (.attributeError (d.entries.getD choice 0), store)) := by
  refine ⟨?_, ?_, ?_, ?_, ?_⟩
  · intro h
    simp [draw, h]
  · intro d h he
    simp [draw, h, he]
  · intro d e h he hres
    simp [draw, h, he, Nat.mod_one, List.getD, hres]
  · intro d h hc hres
    have hne : d.entries ≠ [] := by
      intro he
      rw [he] at hc
      simp at hc
    simp only [List.getD, List.get?_eq_getElem?] at hres
    simp [draw, h, hne, Nat.mod_eq_of_lt hc, List.getD, hres]
  · intro d h hc hres
    have hne : d.entries ≠ [] := by
      intro he
      rw [he] at hc
      simp at hc
    simp only [List.getD, List.get?_eq_getElem?] at hres
    simp [draw, h, hne, Nat.mod_eq_of_lt hc, List.getD, hres]

/-- C5 witness: the amended draw specification applied at concrete
stores — a missing name, an empty raffle, a one-entry raffle with a
resolving winner (arbitrary random index 3), a two-entry raffle with
index 1, and a two-entry raffle whose drawn winner does not resolve. -/
theorem C5_draw_spec_witness :
    draw ⟨fun _ => true, fun _ => true⟩
        [("g", { entries := [4], owner := 1 })] "x" 0 =
      (.notFound, [("g", { entries := [4], owner := 1 })]) ∧
    draw ⟨fun _ => true, fun _ => true⟩
        [("g", { entries := [], owner := 1 })] "g" 5 =
      (.noEntries, [("g", { entries := [], owner := 1 })]) ∧
    draw ⟨fun _ => true, fun _ => true⟩
        [("g", { entries := [4], owner := 1 })] "g" 3 = (.winner 4, []) ∧
    draw ⟨fun _ => true, fun _ => true⟩
        [("g", { entries := [4, 6], owner := 1 })] "g" 1 = (.winner 6, []) ∧
    draw ⟨fun _ => false, fun _ => false⟩
        [("g", { entries := [4, 6], owner := 1 })] "g" 1 =
      (.attributeError 6, [("g", { entries := [4, 6], owner := 1 })]) := by
  refine ⟨?_, ?_, ?_, ?_, ?_⟩
  · exact (C5_draw_spec ⟨fun _ => true, fun _ => true⟩
      [("g", { entries := [4], owner := 1 })] "x" 0).1 (by decide)
  · exact (C5_draw_spec ⟨fun _ => true, fun _ => true⟩
      [("g", { entries := [], owner := 1 })] "g" 5).2.1
      { entries := [], owner := 1 } (by decide) (by decide)
  · exact (C5_draw_spec ⟨fun _ => true, fun _ => true⟩
      [("g", { entries := [4], owner := 1 })] "g" 3).2.2.1
      { entries := [4], owner := 1 } 4 (by decide) (by decide) (by decide)
  · exact (C5_draw_spec ⟨fun _ => true, fun _ => true⟩
      [("g", { entries := [4, 6], owner := 1 })] "g" 1).2.2.2.1
      { entries := [4, 6], owner := 1 } (by decide) (by decide) (by decide)
  · exact (C5_draw_spec ⟨fun _ => false, fun _ => false⟩
      [("g", { entries := [4, 6], owner := 1 })] "g" 1).2.2.2.2
      { entries := [4, 6], owner := 1 } (by decide) (by decide) (by decide)

/-- C8.  `leave` fails `NotFound` on an absent raffle and `NotEntered`
when the identity is not in `entries`; otherwise it removes exactly that
identity (first occurrence) and touches nothing else — in particular the
stored `maximum_entries` field of the updated raffle is structurally
`d.maximum_entries`, unchanged (no slot is freed).  And after such a
`leave`, a `join` by the same identity succeeds again whenever the
identity passes the prevented / owner / roles / age checks (the capacity
check can never fail, by `maxCheck_never`), re-appending the identity and
again leaving `maximum_entries` unchanged. -/
theorem C8_leave_then_join_spec (store : Store) (name : String) (j : Joiner) :
    (Store.get store name = none → leave store name j.id = (.notFound, store)) ∧
    (∀ d, Store.get store name = some d → j.id ∉ d.entries →
      leave store name j.id = (.notEntered, store)) ∧
    (∀ d, Store.get store name = some d → j.id ∈ d.entries →
      leave store name j.id =
        (.left, Store.set store name { d with entries := d.entries.erase j.id })) ∧
    (∀ d, Store.get store name = some d → j.id ∈ d.entries → d.entries.Nodup →
      preventedCheck d.prevented_users j.id = none →
      j.id ≠ d.owner →
      rolesCheck d.roles_needed_to_enter j.roles = none →
      ageCheck d.account_age j.accountAgeDays = false →
      join (leave store name j.id).2 name j =
        (.joined, Store.set (leave store name j.id).2 name
          { d with entries := d.entries.erase j.id ++ [j.id] })) := by
  refine ⟨?_, ?_, ?_, ?_⟩
  · intro h
    simp [leave, h]
  · intro d h hm
    simp [leave, h, hm]
  · intro d h hm
    simp [leave, h, hm]
  · intro d h hm hnd hprev howner hroles hage
    have hleave : (leave store name j.id).2 =
        Store.set store name { d with entries := d.entries.erase j.id } := by
      simp [leave, h, hm]
    rw [hleave]
    have hget : Store.get
        (Store.set store name { d with entries := d.entries.erase j.id }) name =
        some { d with entries := d.entries.erase j.id } :=
      Store.get_set_self h
    have hnotmem : j.id ∉ d.entries.erase j.id := by
      intro hmem
      exact absurd (hnd.mem_erase_iff.mp hmem).1 (by simp)
    simp [join, hget, hnotmem, hprev, howner, maxCheck_never, hroles, hage]

/-- C8 witness: the leave/join specification at a concrete one-raffle
store for the identity 5 — missing name, non-entered identity, the
removal itself, and the successful re-join leaving `maximum_entries`
untouched. -/
theorem C8_leave_then_join_spec_witness :
    leave [("g", { entries := [5], owner := 1, maximum_entries := some 4 })] "x" 5 =
      (.notFound, [("g", { entries := [5], owner := 1, maximum_entries := some 4 })]) ∧
    leave [("g", { entries := [5], owner := 1, maximum_entries := some 4 })] "g" 6 =
      (.notEntered, [("g", { entries := [5], owner := 1, maximum_entries := some 4 })]) ∧
    leave [("g", { entries := [5], owner := 1, maximum_entries := some 4 })] "g" 5 =
      (.left, [("g", { entries := [], owner := 1, maximum_entries := some 4 })]) ∧
    join (leave [("g", { entries := [5], owner := 1, maximum_entries := some 4 })]
        "g" 5).2 "g" ⟨5, [], 10⟩ =
      (.joined, [("g", { entries := [5], owner := 1, maximum_entries := some 4 })]) := by
  refine ⟨?_, ?_, ?_, ?_⟩
  · exact (C8_leave_then_join_spec
      [("g", { entries := [5], owner := 1, maximum_entries := some 4 })]
      "x" ⟨5, [], 10⟩).1 (by decide)
  · exact (C8_leave_then_join_spec
      [("g", { entries := [5], owner := 1, maximum_entries := some 4 })]
      "g" ⟨6, [], 10⟩).2.1
      { entries := [5], owner := 1, maximum_entries := some 4 } (by decide) (by decide)
  · exact (C8_leave_then_join_spec
      [("g", { entries := [5], owner := 1, maximum_entries := some 4 })]
      "g" ⟨5, [], 10⟩).2.2.1
      { entries := [5], owner := 1, maximum_entries := some 4 } (by decide) (by decide)
  · exact (C8_leave_then_join_spec
      [("g", { entries := [5], owner := 1, maximum_entries := some 4 })]
      "g" ⟨5, [], 10⟩).2.2.2
      { entries := [5], owner := 1, maximum_entries := some 4 } (by decide) (by decide)
      (by decide) (by decide) (by decide) (by decide) (by decide)

/-- C6.  `edit accage` with the integer `0`: because `isinstance(0, bool)`
is false, the falsy-removes branch is skipped, `parse_accage(0)` passes
(`0 <` the platform age), and the raffle's `account_age` is *stored as 0*
rather than the condition being removed — contradicting the command's own
docstring ("Use `0` or `false` to disable this condition"). -/
theorem C6_accage_zero_eval :
    accage ⟨2160, 400⟩
        [("g", { entries := [], owner := 1, account_age := some 30 })] "g" (.int 0) =
      (.updated, [("g", { entries := [], owner := 1, account_age := some 0 })]) := by
  decide

/-- C7.  The reconciliation pass does not remove every unresolvable id:
with `entries = [1, 2]` and a resolver that resolves neither, removing 1
shifts the list under the live iterator, 2 is skipped, and the pass
leaves `entries = [2]`. -/
theorem C7_replenish_skips_eval :
    replenish ⟨fun _ => false, fun _ => false⟩
        [("g", { entries := [1, 2], owner := 9 })] =
      [("g", { entries := [2], owner := 9 })] := by
  decide

/-- C9.  On a stored raffle whose `prevented_users` /
`roles_needed_to_enter` key is absent (as every raffle fresh from
`create` without a `maximum_entries` key is), `prevented add` and
`rolesreq add` do not return a typed failure: line 749 / line 801 index
the missing key directly and raise an uncaught `KeyError`. -/
theorem C9_add_keyerror_eval :
    prevented_add [("g", { entries := [], owner := 1 })] "g" 5 =
      (.keyError, [("g", { entries := [], owner := 1 })]) ∧
    rolesreq_add [("g", { entries := [], owner := 1 })] "g" 9 =
      (.keyError, [("g", { entries := [], owner := 1 })]) := by
  constructor
  · decide
  · decide

/-- C10.  `create` keys the store by the lowercased definition name,
while `join`, `leave`, `end` and `draw` look the raffle up by the raw
caller-supplied string: if the definition name is not already lowercase
(and the store's existing keys are lowercase, as `create` guarantees),
then after a successful `create` the original mixed-case name resolves to
nothing — each of those operations reports not-found — while the
lowercased name resolves to the stored raffle. -/
theorem C10_lowercase_keying (store : Store) (d : ParsedDef) (ownerId : Nat)
    (j : Joiner) (choice : Nat) (res : Resolvers)
    (hkeys : ∀ p ∈ store, pyLower p.1 = p.1)
    (hname : pyLower d.name ≠ d.name)
    (hsucc : (create store d ownerId).1 = .created) :
    Store.get (create store d ownerId).2 d.name = none ∧
    (∃ rd, Store.get (create store d ownerId).2 (pyLower d.name) = some rd) ∧
    (join (create store d ownerId).2 d.name j).1 = .notFound ∧
    (leave (create store d ownerId).2 d.name j.id).1 = .notFound ∧
    (endRaffle (create store d ownerId).2 d.name ownerId).1 = .notFound ∧
    (draw res (create store d ownerId).2 d.name choice).1 = .notFound := by
  have hdup : (store.any fun p => pyLower p.1 == pyLower d.name) = false := by
    by_contra hany
    have hany' : (store.any fun p => pyLower p.1 == pyLower d.name) = true := by
      revert hany
      cases store.any fun p => pyLower p.1 == pyLower d.name <;> simp
    unfold create at hsucc
    simp only [hany', if_true] at hsucc
    exact absurd hsucc (by decide)
  have h2 : (create store d ownerId).2 =
      store ++ [(pyLower d.name, createData d ownerId)] := by
    unfold create
    simp [hdup]
  have hg1 : Store.get store d.name = none :=
    Store.get_none_of_lower_keys hkeys hname
  have hgmiss : Store.get (create store d ownerId).2 d.name = none := by
    rw [h2]
    exact Store.get_append_single_ne hg1 hname
  have hg2 : Store.get store (pyLower d.name) = none := by
    cases hx : Store.get store (pyLower d.name) with
    | none => rfl
    | some x =>
      have hmem := Store.get_mem hx
      have := List.any_eq_false.mp hdup _ hmem
      simp only [hkeys _ hmem] at this
      simp at this
  refine ⟨hgmiss, ⟨createData d ownerId, ?_⟩, ?_, ?_, ?_, ?_⟩
  · rw [h2]
    exact Store.get_append_single hg2
  · simp [join, hgmiss]
  · simp [leave, hgmiss]
  · simp [endRaffle, hgmiss]
  · simp [draw, hgmiss]

/-- C10 witness: a raffle created with the mixed-case name "Ab" is only
reachable through "ab". -/
theorem C10_lowercase_keying_witness :
    Store.get (create [] { name := "Ab" } 1).2 "Ab" = none ∧
    (∃ rd, Store.get (create [] { name := "Ab" } 1).2 (pyLower "Ab") = some rd) ∧
    (join (create [] { name := "Ab" } 1).2 "Ab" ⟨2, [], 5⟩).1 = .notFound ∧
    (leave (create [] { name := "Ab" } 1).2 "Ab" 2).1 = .notFound ∧
    (endRaffle (create [] { name := "Ab" } 1).2 "Ab" 1).1 = .notFound ∧
    (draw ⟨fun _ => true, fun _ => true⟩
      (create [] { name := "Ab" } 1).2 "Ab" 0).1 = .notFound :=
  C10_lowercase_keying [] { name := "Ab" } 1 ⟨2, [], 5⟩ 0
    ⟨fun _ => true, fun _ => true⟩ (by simp) (by decide) (by decide)

end Raffle
